import Mathlib

/-!
# TradeTracker analytics layer: a shallow embedding

Shallow Lean embedding of the analytics computations of the TradeTracker
dashboard (the "Trading Performance & Risk Analytics Engine"), translated
from the TypeScript/React source:

* the streak pass, balance/drawdown reconstruction of `TradingReport`
  (src/unnamed/part_006),
* the per-cent risk metrics, Kelly sizing, composite risk score and
  drawdown-risk table of `RiskModel` (src/unnamed/part_010),
* the guarded per-day drawdown of `ChartPanel`
  (src/frontend/components/ChartPanel.tsx),
* the profit-factor display rule of `AdvancedStats` (src/unnamed/part_007),
* the "Today" window of `PeriodsComparison` (src/unnamed/part_008) and the
  MAE estimation of `MAEMFEChart` (src/unnamed/part_009).

JavaScript numbers are modelled as exact rationals extended with the IEEE
special values `inf`, `ninf` and `nan` (`JsNum` below): arithmetic is exact
(no unit-in-the-last-place rounding is modelled — no property below depends
on it) but division by zero, infinity propagation and NaN propagation follow
the ECMAScript rules, which several of the verified properties hinge on.
`Math.pow` is modelled for non-negative integer exponents, the only
exponents reached in the embedded code.  Computations that sort trades by
exit time are modelled on the already time-ordered list of `net_profit`
values, since only that field feeds the computations verified here.
-/

namespace TradeTracker

/-- A JavaScript number: an exact rational, `Infinity`, `-Infinity` or `NaN`. -/
inductive JsNum where
  | num (q : ℚ)
  | inf
  | ninf
  | nan
deriving DecidableEq, Repr

namespace JsNum

/-- JS addition. -/
def jadd : JsNum → JsNum → JsNum
  | nan, _ => nan
  | _, nan => nan
  | inf, ninf => nan
  | ninf, inf => nan
  | inf, _ => inf
  | _, inf => inf
  | ninf, _ => ninf
  | _, ninf => ninf
  | num a, num b => num (a + b)

/-- JS negation. -/
def jneg : JsNum → JsNum
  | nan => nan
  | inf => ninf
  | ninf => inf
  | num a => num (-a)

/-- JS subtraction. -/
def jsub (a b : JsNum) : JsNum := jadd a (jneg b)

/-- JS multiplication. -/
def jmul : JsNum → JsNum → JsNum
  | nan, _ => nan
  | _, nan => nan
  | inf, inf => inf
  | inf, ninf => ninf
  | ninf, inf => ninf
  | ninf, ninf => inf
  | inf, num b => if 0 < b then inf else if b < 0 then ninf else nan
  | num a, inf => if 0 < a then inf else if a < 0 then ninf else nan
  | ninf, num b => if 0 < b then ninf else if b < 0 then inf else nan
  | num a, ninf => if 0 < a then ninf else if a < 0 then inf else nan
  | num a, num b => num (a * b)

/-- JS division (negative zero is not modelled: the embedded code never
produces it on the paths verified here). -/
def jdiv : JsNum → JsNum → JsNum
  | nan, _ => nan
  | _, nan => nan
  | inf, inf => nan
  | inf, ninf => nan
  | ninf, inf => nan
  | ninf, ninf => nan
  | inf, num b => if 0 ≤ b then inf else ninf
  | ninf, num b => if 0 ≤ b then ninf else inf
  | num _, inf => num 0
  | num _, ninf => num 0
  | num a, num b =>
      if b = 0 then (if 0 < a then inf else if a < 0 then ninf else nan)
      else num (a / b)

/-- JS `<` (false when either side is NaN). -/
def jlt : JsNum → JsNum → Bool
  | nan, _ => false
  | _, nan => false
  | num a, num b => decide (a < b)
  | num _, inf => true
  | ninf, num _ => true
  | ninf, inf => true
  | _, _ => false

/-- JS `<=` (false when either side is NaN). -/
def jle : JsNum → JsNum → Bool
  | nan, _ => false
  | _, nan => false
  | num a, num b => decide (a ≤ b)
  | num _, inf => true
  | ninf, _ => true
  | inf, inf => true
  | _, _ => false

/-- JS `>`. -/
def jgt (a b : JsNum) : Bool := jlt b a

/-- JS `>=`. -/
def jge (a b : JsNum) : Bool := jle b a

/-- JS `Math.min` (NaN-propagating). -/
def jmin : JsNum → JsNum → JsNum
  | nan, _ => nan
  | _, nan => nan
  | ninf, _ => ninf
  | _, ninf => ninf
  | inf, x => x
  | x, inf => x
  | num a, num b => num (min a b)

/-- JS `Math.max` (NaN-propagating). -/
def jmax : JsNum → JsNum → JsNum
  | nan, _ => nan
  | _, nan => nan
  | inf, _ => inf
  | _, inf => inf
  | ninf, x => x
  | x, ninf => x
  | num a, num b => num (max a b)

/-- JS `Math.abs`. -/
def jabs : JsNum → JsNum
  | nan => nan
  | inf => inf
  | ninf => inf
  | num a => num |a|

/-- JS `Math.ceil`. -/
def jceil : JsNum → JsNum
  | nan => nan
  | inf => inf
  | ninf => ninf
  | num a => num (Int.ceil a : ℤ)

/-- Iterated JS multiplication, the meaning of `Math.pow` at a natural
exponent. -/
def jpowNat (b : JsNum) : ℕ → JsNum
  | 0 => num 1
  | n + 1 => jmul b (jpowNat b n)

/-- JS `Math.pow`, modelled for non-negative integer exponents (the only
exponents occurring in the embedded code); other exponents are not modelled
and map to NaN. -/
def jpow (b e : JsNum) : JsNum :=
  match e with
  | num q => if 0 ≤ q.num ∧ q.den = 1 then jpowNat b q.num.toNat else nan
  | _ => nan

/-- JS `isFinite`. -/
def jsFinite : JsNum → Bool
  | num _ => true
  | _ => false

theorem jadd_num (a b : ℚ) : jadd (num a) (num b) = num (a + b) := rfl

theorem jsub_num (a b : ℚ) : jsub (num a) (num b) = num (a - b) := by
  simp [jsub, jneg, jadd, sub_eq_add_neg]

theorem jmul_num (a b : ℚ) : jmul (num a) (num b) = num (a * b) := rfl

theorem jdiv_num (a b : ℚ) (hb : b ≠ 0) : jdiv (num a) (num b) = num (a / b) := by
  simp [jdiv, hb]

theorem jle_num (a b : ℚ) : jle (num a) (num b) = decide (a ≤ b) := rfl

theorem jlt_num (a b : ℚ) : jlt (num a) (num b) = decide (a < b) := rfl

theorem jgt_num (a b : ℚ) : jgt (num a) (num b) = decide (b < a) := rfl

theorem jpowNat_num (a : ℚ) : ∀ n : ℕ, jpowNat (num a) n = num (a ^ n)
  | 0 => rfl
  | n + 1 => by rw [jpowNat, jpowNat_num a n, jmul_num, pow_succ, mul_comm]

theorem jpow_num_nat (a : ℚ) (n : ℕ) : jpow (num a) (num n) = num (a ^ n) := by
  have h1 : ((n : ℚ)).num = (n : ℤ) := Rat.num_natCast n
  have h2 : ((n : ℚ)).den = 1 := Rat.den_natCast n
  simp [jpow, h1, h2, jpowNat_num]

theorem jpow_num_int (a : ℚ) (n : ℤ) (hn : 0 ≤ n) :
    jpow (num a) (num n) = num (a ^ n.toNat) := by
  have h1 : ((n : ℚ)).num = n := Rat.num_intCast n
  have h2 : ((n : ℚ)).den = 1 := Rat.den_intCast n
  simp [jpow, h1, h2, hn, jpowNat_num]

theorem jdiv_num_zero_neg (a : ℚ) (ha : a < 0) : jdiv (num a) (num 0) = ninf := by
  show (if (0 : ℚ) = 0 then (if 0 < a then inf else if a < 0 then ninf else nan)
    else num (a / 0)) = ninf
  rw [if_pos rfl, if_neg (by linarith), if_pos ha]

theorem jdiv_num_zero_pos (a : ℚ) (ha : 0 < a) : jdiv (num a) (num 0) = inf := by
  show (if (0 : ℚ) = 0 then (if 0 < a then inf else if a < 0 then ninf else nan)
    else num (a / 0)) = inf
  rw [if_pos rfl, if_pos ha]

theorem jdiv_ninf_num (b : ℚ) (hb : 0 ≤ b) : jdiv ninf (num b) = ninf := by
  show (if 0 ≤ b then ninf else inf) = ninf
  rw [if_pos hb]

theorem jdiv_ninf_num_neg (b : ℚ) (hb : b < 0) : jdiv ninf (num b) = inf := by
  show (if 0 ≤ b then ninf else inf) = inf
  rw [if_neg (not_le.2 hb)]

theorem jmin_num (a b : ℚ) : jmin (num a) (num b) = num (min a b) := rfl

theorem jmax_num (a b : ℚ) : jmax (num a) (num b) = num (max a b) := rfl

theorem jmul_ninf_num (b : ℚ) (hb : 0 < b) : jmul ninf (num b) = ninf := by
  show (if 0 < b then ninf else if b < 0 then inf else nan) = ninf
  rw [if_pos hb]

end JsNum

open JsNum

/-!
## Streak analyzer (`TradingReport`, src/unnamed/part_006, "Consecutive
wins/losses" pass)

The component sorts the trades by exit time and folds the loop body below
over them; `profits` is the list of `net_profit` values in that time order.
-/

/-- The mutable locals of the consecutive wins/losses pass in
src/unnamed/part_006. -/
structure Streaks where
  currentStreak : ℕ
  maxWinStreak : ℕ
  maxLossStreak : ℕ
  currentStreakProfit : ℚ
  maxConsecutiveProfit : ℚ
  maxConsecutiveLoss : ℚ
  lastWasWin : Option Bool
deriving DecidableEq, Repr

/-- Initial values of the streak locals. -/
def streakInit : Streaks :=
  { currentStreak := 0, maxWinStreak := 0, maxLossStreak := 0
    currentStreakProfit := 0, maxConsecutiveProfit := 0, maxConsecutiveLoss := 0
    lastWasWin := none }

/-- One iteration of the `forEach` body of the consecutive wins/losses pass:
`isWin` is the plain boolean `net_profit > 0`, so a zero-profit trade is
classified with the losses.  JS truthiness: `lastWasWin` is truthy exactly
when it is `some true`. -/
def streakStep (s : Streaks) (p : ℚ) : Streaks :=
  let isWin : Bool := decide (0 < p)
  if s.lastWasWin = none ∨ s.lastWasWin = some isWin then
    { s with currentStreak := s.currentStreak + 1
             currentStreakProfit := s.currentStreakProfit + p
             lastWasWin := some isWin }
  else
    { currentStreak := 1
      maxWinStreak :=
        if s.lastWasWin = some true ∧ s.maxWinStreak < s.currentStreak then
          s.currentStreak else s.maxWinStreak
      maxLossStreak :=
        if s.lastWasWin ≠ some true ∧ s.maxLossStreak < s.currentStreak then
          s.currentStreak else s.maxLossStreak
      currentStreakProfit := p
      maxConsecutiveProfit :=
        if s.lastWasWin = some true ∧ s.maxConsecutiveProfit < s.currentStreakProfit then
          s.currentStreakProfit else s.maxConsecutiveProfit
      maxConsecutiveLoss :=
        if s.lastWasWin ≠ some true ∧ s.currentStreakProfit < s.maxConsecutiveLoss then
          s.currentStreakProfit else s.maxConsecutiveLoss
      lastWasWin := some isWin }

/-- The two statements after the loop: they flush the length of the final streak
into the length maxima — and only its length, not its cumulative profit. -/
def streakFlush (s : Streaks) : Streaks :=
  { s with
    maxWinStreak :=
      if s.lastWasWin = some true ∧ s.maxWinStreak < s.currentStreak then
        s.currentStreak else s.maxWinStreak
    maxLossStreak :=
      if s.lastWasWin ≠ some true ∧ s.maxLossStreak < s.currentStreak then
        s.currentStreak else s.maxLossStreak }

/-- The whole consecutive wins/losses pass of src/unnamed/part_006. -/
def computeStreaks (profits : List ℚ) : Streaks :=
  streakFlush (profits.foldl streakStep streakInit)

/-!
## Equity curve and drawdown (src/unnamed/part_006, src/unnamed/part_003,
src/frontend/components/ChartPanel.tsx)
-/

/-- JS `Math.round`: round half toward positive infinity. -/
def jsRound (x : ℚ) : ℤ := Int.floor (x + 1/2)

/-- Source: `Math.round(x * 100) / 100`: rounding to two decimals. -/
def round2 (x : ℚ) : ℚ := (jsRound (x * 100) : ℚ) / 100

/-- The `balance` fields recorded by `balanceData` in src/unnamed/part_006:
the running balance accumulates `net_profit` exactly but each recorded point
is `Math.round(runningBalance * 100) / 100`. -/
def balanceData (b : ℚ) : List ℚ → List ℚ
  | [] => []
  | p :: ps => round2 (b + p) :: balanceData (b + p) ps

/-- The exact running balance: `runningBalance` in src/unnamed/part_006 and
`balance` in the GrowthChart of src/unnamed/part_003 accumulate
`net_profit` without rounding. -/
def runningFinalBalance (profits : List ℚ) (initB : ℚ) : ℚ :=
  profits.foldl (fun b p => b + p) initB

/-- The mutable locals of the drawdown loop of src/unnamed/part_006. -/
structure DDState where
  runningBalance : JsNum
  peak : JsNum
  maxDD : JsNum
deriving DecidableEq, Repr

/-- One iteration of the drawdown loop: `runningBalance += net_profit;
if (runningBalance > peak) peak = runningBalance;
dd = ((peak - runningBalance) / peak) * 100; if (dd > maxDD) maxDD = dd;`.
Note the division by `peak` is unguarded. -/
def ddStep (s : DDState) (p : ℚ) : DDState :=
  let rb := jadd s.runningBalance (num p)
  let pk := if jgt rb s.peak then rb else s.peak
  let dd := jmul (jdiv (jsub pk rb) pk) (num 100)
  { runningBalance := rb
    peak := pk
    maxDD := if jgt dd s.maxDD then dd else s.maxDD }

/-- The drawdown loop of src/unnamed/part_006 over the time-ordered
`net_profit` values, starting from `peak = initialBalance; maxDD = 0;
runningBalance = initialBalance`. -/
def jsMaxDD (profits : List ℚ) (initB : ℚ) : JsNum :=
  (profits.foldl ddStep
    { runningBalance := num initB, peak := num initB, maxDD := num 0 }).maxDD

/-- The per-day drawdown of src/frontend/components/ChartPanel.tsx, which
guards the division:
`peakBalance > 0 ? ((peakBalance - balance) / peakBalance) * 100 : 0`. -/
def chartDrawdown (peakBalance balance : ℚ) : ℚ :=
  if 0 < peakBalance then (peakBalance - balance) / peakBalance * 100 else 0

/-!
## Risk metrics pipeline (`RiskModel`, src/unnamed/part_010)

The component first maps the trades to per-trade percentage returns
(`tradeReturns`); everything downstream is a function of that list, so the
functions below take the returns list `rs : List JsNum` and
`tradeReturns` ties them back to the trade list and initial balance.
-/

namespace RiskModel

/-- Source: `trades.map(t => (t.net_profit / initialBalance) * 100)`. -/
def tradeReturns (profits : List ℚ) (initB : ℚ) : List JsNum :=
  profits.map fun p => jmul (jdiv (num p) (num initB)) (num 100)

/-- Source: `tradeReturns.filter(r => r > 0)`. -/
def winReturns (rs : List JsNum) : List JsNum := rs.filter fun r => jgt r (num 0)

/-- Source: `tradeReturns.filter(r => r < 0)`. -/
def lossReturns (rs : List JsNum) : List JsNum := rs.filter fun r => jlt r (num 0)

/-- Source: `reduce((a, b) => a + b, 0)`. -/
def jsum (rs : List JsNum) : JsNum := rs.foldl jadd (num 0)

/-- Source: `avgWinPct = winReturns.length > 0 ? winReturns.reduce(..) / winReturns.length : 0`. -/
def avgWinPct (rs : List JsNum) : JsNum :=
  if 0 < (winReturns rs).length then
    jdiv (jsum (winReturns rs)) (num ((winReturns rs).length : ℚ))
  else num 0

/-- Source: `avgLossPct = lossReturns.length > 0 ? Math.abs(lossReturns.reduce(..) / lossReturns.length) : 0`. -/
def avgLossPct (rs : List JsNum) : JsNum :=
  if 0 < (lossReturns rs).length then
    jabs (jdiv (jsum (lossReturns rs)) (num ((lossReturns rs).length : ℚ)))
  else num 0

/-- Source: `winRate = (winReturns.length / trades.length) * 100` (the returns list
has one entry per trade). -/
def winRate (rs : List JsNum) : JsNum :=
  jmul (jdiv (num ((winReturns rs).length : ℚ)) (num (rs.length : ℚ))) (num 100)

/-- Source: `riskRewardRatio = avgLossPct > 0 ? avgWinPct / avgLossPct : 0`. -/
def riskReward (rs : List JsNum) : JsNum :=
  if jgt (avgLossPct rs) (num 0) then jdiv (avgWinPct rs) (avgLossPct rs) else num 0

/-- Source: `kellyPct = avgLossPct > 0
  ? ((winRate / 100 * riskRewardRatio) - (1 - winRate / 100)) / riskRewardRatio * 100
  : 0`. -/
def kellyPct (rs : List JsNum) : JsNum :=
  if jgt (avgLossPct rs) (num 0) then
    jmul (jdiv (jsub (jmul (jdiv (winRate rs) (num 100)) (riskReward rs))
                     (jsub (num 1) (jdiv (winRate rs) (num 100))))
               (riskReward rs))
         (num 100)
  else num 0

/-- Source: `kellyHalf = kellyPct / 2`. -/
def kellyHalf (rs : List JsNum) : JsNum := jdiv (kellyPct rs) (num 2)

/-- Source: `totalWins = winReturns.reduce((a, b) => a + b, 0)`. -/
def totalWins (rs : List JsNum) : JsNum := jsum (winReturns rs)

/-- Source: `totalLosses = Math.abs(lossReturns.reduce((a, b) => a + b, 0))`. -/
def totalLosses (rs : List JsNum) : JsNum := jabs (jsum (lossReturns rs))

/-- Source: `profitFactor = totalLosses > 0 ? totalWins / totalLosses : 0`. -/
def profitFactor (rs : List JsNum) : JsNum :=
  if jgt (totalLosses rs) (num 0) then jdiv (totalWins rs) (totalLosses rs) else num 0

/-- Source: `expectancyPct = (winRate / 100 * avgWinPct) - ((1 - winRate / 100) * avgLossPct)`. -/
def expectancyPct (rs : List JsNum) : JsNum :=
  jsub (jmul (jdiv (winRate rs) (num 100)) (avgWinPct rs))
       (jmul (jsub (num 1) (jdiv (winRate rs) (num 100))) (avgLossPct rs))

/-- Source: `breakEvenWinRate = avgWinPct + avgLossPct > 0
  ? (avgLossPct / (avgWinPct + avgLossPct)) * 100 : 50`. -/
def breakEvenWinRate (rs : List JsNum) : JsNum :=
  if jgt (jadd (avgWinPct rs) (avgLossPct rs)) (num 0) then
    jmul (jdiv (avgLossPct rs) (jadd (avgWinPct rs) (avgLossPct rs))) (num 100)
  else num 50

/-- Source: `edge = winRate - breakEvenWinRate`. -/
def edge (rs : List JsNum) : JsNum := jsub (winRate rs) (breakEvenWinRate rs)

/-- Source: `drawdownLevels = [10, 20, 30, 50]`. -/
def drawdownLevels : List ℚ := [10, 20, 30, 50]

/-- The Consecutive Losses column: `avgLossPct <= 0 ? 999 :
Math.ceil(dd / avgLossPct)`. -/
def consecutiveLossesFor (rs : List JsNum) (level : ℚ) : JsNum :=
  if jle (avgLossPct rs) (num 0) then num 999
  else jceil (jdiv (num level) (avgLossPct rs))

/-- Source: `lossRate = 1 - winRate / 100`. -/
def lossRate (rs : List JsNum) : JsNum := jsub (num 1) (jdiv (winRate rs) (num 100))

/-- The Probability column of the Drawdown Risk Analysis table:
`Math.pow(lossRate, trades) * 100`. -/
def tableProbability (rs : List JsNum) (level : ℚ) : JsNum :=
  jmul (jpow (lossRate rs) (consecutiveLossesFor rs level)) (num 100)

/-- The composite system score of the recommendation block before clamping:
`50` adjusted by the edge, win-rate, profit-factor, expectancy and
consistency rules. -/
def riskScoreRaw (e w pf ex sd al : JsNum) : ℤ :=
  let s1 : ℤ :=
    if jgt e (num 15) then 50 + 20
    else if jgt e (num 10) then 50 + 15
    else if jgt e (num 5) then 50 + 10
    else if jgt e (num 0) then 50 + 5
    else 50 - 20
  let s2 := if jge w (num 50) then s1 + 10 else s1 - 10
  let s3 :=
    if jge pf (num 2) then s2 + 15
    else if jge pf (num (3/2)) then s2 + 10
    else if jge pf (num (6/5)) then s2 + 5
    else if jlt pf (num 1) then s2 - 20
    else s2
  let s4 :=
    if jgt ex (num (1/2)) then s3 + 10
    else if jgt ex (num 0) then s3 + 5
    else s3 - 15
  if jlt sd al then s4 + 5
  else if jgt sd (jmul al (num 2)) then s4 - 10
  else s4

/-- Source: `riskScore = Math.max(0, Math.min(100, riskScore))`. -/
def riskScore (e w pf ex sd al : JsNum) : ℤ :=
  max 0 (min 100 (riskScoreRaw e w pf ex sd al))

/-- The tier branches of the recommendation block: `recommendedPct` from the
clamped score and Half-Kelly. -/
def recommendedPct (score : ℤ) (kh : JsNum) : JsNum :=
  if 75 ≤ score then jmin kh (num 5)
  else if 50 ≤ score then jmin (jdiv kh (num 2)) (num 3)
  else if 30 ≤ score then jmin (num 1) (jdiv kh (num 4))
  else num (1/2)

/-- The recommended per-trade risk produced by the recommendation block as a
function of the trade list, initial balance and the `stdDevPct` metric.
`stdDevPct` is `Math.sqrt` of the return variance in the source; a square
root is generally irrational, so it is an explicit argument here and the
theorems below hold for every value of it. -/
def recommendedRiskPct (profits : List ℚ) (initB : ℚ) (sd : JsNum) : JsNum :=
  let rs := tradeReturns profits initB
  recommendedPct
    (riskScore (edge rs) (winRate rs) (profitFactor rs) (expectancyPct rs) sd (avgLossPct rs))
    (kellyHalf rs)

end RiskModel

/-!
## Rational-level views of the risk pipeline

When the initial balance is non-zero every per-trade return is a plain
rational, and each pipeline stage collapses to ordinary rational
arithmetic.  The definitions below are those rational values; the bridging
lemmas later identify them with the `JsNum` pipeline.
-/

/-- The per-trade percentage returns as rationals. -/
def returnsQ (profits : List ℚ) (initB : ℚ) : List ℚ :=
  profits.map fun p => p / initB * 100

/-- The strictly positive entries of a returns list. -/
def winsQ (qs : List ℚ) : List ℚ := qs.filter fun q => 0 < q

/-- The strictly negative entries of a returns list. -/
def lossesQ (qs : List ℚ) : List ℚ := qs.filter fun q => q < 0

/-- Rational value of `avgWinPct`. -/
def avgWinQ (qs : List ℚ) : ℚ :=
  if 0 < (winsQ qs).length then (winsQ qs).sum / ((winsQ qs).length : ℚ) else 0

/-- Rational value of `avgLossPct` (a magnitude). -/
def avgLossQ (qs : List ℚ) : ℚ :=
  if 0 < (lossesQ qs).length then |(lossesQ qs).sum / ((lossesQ qs).length : ℚ)| else 0

/-- Rational value of `winRate` (for a non-empty returns list). -/
def winRateQ (qs : List ℚ) : ℚ :=
  ((winsQ qs).length : ℚ) / (qs.length : ℚ) * 100

/-!
## Period aggregation and MAE estimation (src/unnamed/part_008,
src/unnamed/part_009)
-/

/-- Milliseconds per day. -/
def msPerDay : ℤ := 86400000

/-- Midnight of the day containing an epoch-millisecond instant
(`new Date(now.getFullYear(), now.getMonth(), now.getDate())`), modelled at
UTC offset 0 as flooring to a day boundary. -/
def midnightMs (t : ℤ) : ℤ := (Int.fdiv t msPerDay) * msPerDay

/-- The Today-window profit of `periodsData` in src/unnamed/part_008 as a
function of the clock value `nowMs`: `calculatePeriod(today, today + 86400000)`
filters the trades (exit time in epoch ms, net profit) with
`today <= t < today + 1 day` and sums their profits.  In the source `nowMs`
is not a parameter: it is `new Date()` sampled inside the component. -/
def todayProfit (trades : List (ℤ × ℚ)) (nowMs : ℤ) : ℚ :=
  let start := midnightMs nowMs
  ((trades.filter fun tr => start ≤ tr.1 ∧ tr.1 < start + msPerDay).map Prod.snd).sum

/-- The pip estimate of src/unnamed/part_009 for a non-gold symbol:
`(net_profit / volume) * 10`. -/
def estimatePips (netProfit volume : ℚ) : ℚ := netProfit / volume * 10

/-- The MAE estimate of src/unnamed/part_009 as a function of the draw
`rnd` of `Math.random()` (not a parameter in the source):
winners get `-Math.abs(pips) * (Math.random() * 0.3)`, the rest
`pips * (1 + Math.random() * 0.5)`. -/
def maeEstimate (netProfit pips rnd : ℚ) : ℚ :=
  if 0 < netProfit then -|pips| * (rnd * (3/10))
  else pips * (1 + rnd * (1/2))

/-- src/unnamed/part_007 line 149: the profit factor renders as the infinity
symbol exactly when the numeric value is at least the hard-coded 999. -/
def profitFactorRendersUnbounded (pf : ℚ) : Bool := decide (999 ≤ pf)

/-!
## Risk-of-ruin table of `RiskOfRuin`
(src/frontend/components/DailyStats.tsx, lines 440 onward)

This component computes its own, log-based drawdown table from the raw
`net_profit` values (no balance division; the code assumes a $10000
balance).  `Math.log` is an implementation-approximated natural logarithm
and therefore enters the embedding as an explicit function argument `jlog`
(the same move as for `Math.sqrt` above); the theorems below hold for every
argument within mathematically justified brackets, and `mathLogSample` is
one concrete representative of a conforming implementation.
-/

namespace DailyRisk

/-- Source: `trades.filter(t => t.net_profit > 0)`. -/
def winsD (profits : List ℚ) : List ℚ := profits.filter fun p => 0 < p

/-- Source: `trades.filter(t => t.net_profit < 0)`. -/
def lossesD (profits : List ℚ) : List ℚ := profits.filter fun p => p < 0

/-- Source: `winRate = trades.length > 0 ? wins.length / trades.length : 0.5`
(a fraction, not a percentage). -/
def winRateD (profits : List ℚ) : ℚ :=
  if 0 < profits.length then ((winsD profits).length : ℚ) / (profits.length : ℚ)
  else 1/2

/-- Source: `avgWin = wins.length > 0 ? wins.reduce(..) / wins.length : 0`. -/
def avgWinD (profits : List ℚ) : ℚ :=
  if 0 < (winsD profits).length then
    (winsD profits).sum / ((winsD profits).length : ℚ)
  else 0

/-- Source: `avgLoss = losses.length > 0 ?
Math.abs(losses.reduce(..) / losses.length) : 1` — the default is 1, not 0,
when no losing trade exists. -/
def avgLossD (profits : List ℚ) : ℚ :=
  if 0 < (lossesD profits).length then
    |(lossesD profits).sum / ((lossesD profits).length : ℚ)|
  else 1

/-- Source: `lossLevels = [100, 90, 80, 70, 60, 50, 40, 30, 20, 10]`. -/
def dailyLossLevels : List ℚ := [100, 90, 80, 70, 60, 50, 40, 30, 20, 10]

/-- Source: `lossPerTradeAvg = avgLoss / 10000` (the assumed balance). -/
def lossPerTradeAvgD (profits : List ℚ) : ℚ := avgLossD profits / 10000

/-- The value of the `consecutiveLosses` local after the first if-statement:
`lossPerTradeAvg > 0` replaces the initial 0 by
`Math.ceil(Math.log(remainingPercent) / Math.log(1 - lossPerTradeAvg))`
where `remainingPercent = (100 - lossPercent) / 100`. -/
def dailyConsecutiveRaw (jlog : JsNum → JsNum) (profits : List ℚ) (level : ℚ) :
    JsNum :=
  if 0 < lossPerTradeAvgD profits then
    jceil (jdiv (jlog (num ((100 - level) / 100)))
                (jlog (num (1 - lossPerTradeAvgD profits))))
  else num 0

/-- The value after the second if-statement: when the log-based count is
negative or not finite (`consecutiveLosses < 0 || !isFinite(..)`) it is
replaced by the linear fallback
`Math.ceil(lossPercent / (lossPerTradeAvg * 100))`. -/
def dailyConsecutive (jlog : JsNum → JsNum) (profits : List ℚ) (level : ℚ) :
    JsNum :=
  if jlt (dailyConsecutiveRaw jlog profits level) (num 0)
      || !(jsFinite (dailyConsecutiveRaw jlog profits level)) then
    jceil (jdiv (num level) (num (lossPerTradeAvgD profits * 100)))
  else dailyConsecutiveRaw jlog profits level

/-- The probability before clamping: with `lossRate = 1 - winRate`,
`winRate > 0.5 ? Math.pow(lossRate / winRate, consecutiveLosses) * 100
: Math.pow(lossRate, consecutiveLosses / 10) * 100`. -/
def dailyProbabilityRaw (jlog : JsNum → JsNum) (profits : List ℚ) (level : ℚ) :
    JsNum :=
  if (1/2 : ℚ) < winRateD profits then
    jmul (jpow (jdiv (num (1 - winRateD profits)) (num (winRateD profits)))
               (dailyConsecutive jlog profits level)) (num 100)
  else
    jmul (jpow (num (1 - winRateD profits))
               (jdiv (dailyConsecutive jlog profits level) (num 10))) (num 100)

/-- The Probability column of the table:
`Math.max(0, Math.min(100, probability))`. -/
def dailyProbability (jlog : JsNum → JsNum) (profits : List ℚ) (level : ℚ) :
    JsNum :=
  jmax (num 0) (jmin (num 100) (dailyProbabilityRaw jlog profits level))

/-- One representative of the values a conforming `Math.log` returns at the
three inputs the counterexample evaluation reaches: the ECMAScript
specification fixes `Math.log(0) = -Infinity` exactly, while at `0.1` and
`0.99` any implementation-approximated natural logarithm lies within the
brackets hypothesised by `dailyRuin_violation_general` below (the true
logarithm does with a relative margin above 0.0004, by
`dailyLog_quotient_bracket`, and double precision is twelve orders of
magnitude finer); the two rationals are six-digit decimal truncations. -/
def mathLogSample : JsNum → JsNum := fun x =>
  if x = num (1/10) then num (-(2302585/1000000 : ℚ))
  else if x = num (99/100) then num (-(100503/10000000 : ℚ))
  else if x = num 0 then JsNum.ninf
  else JsNum.nan

end DailyRisk

/-!
## Bridging lemmas: the `JsNum` pipeline over rational returns
-/

namespace RiskModel

theorem tradeReturns_eq_map (profits : List ℚ) (initB : ℚ) (h : initB ≠ 0) :
    tradeReturns profits initB = (returnsQ profits initB).map num := by
  unfold tradeReturns returnsQ
  rw [List.map_map]
  induction profits with
  | nil => rfl
  | cons p t ih =>
      simp only [List.map_cons, List.cons.injEq] at *
      exact ⟨by simp [Function.comp, jdiv_num _ _ h, jmul_num], ih⟩

theorem filter_map_num (pj : JsNum → Bool) (p : ℚ → Bool)
    (hp : ∀ q : ℚ, pj (num q) = p q) (qs : List ℚ) :
    (qs.map num).filter pj = (qs.filter p).map num := by
  induction qs with
  | nil => rfl
  | cons q l ih =>
      simp only [List.map_cons, List.filter_cons, hp]
      by_cases h : p q <;> simp [h, ih]

theorem winReturns_map (qs : List ℚ) :
    winReturns (qs.map num) = (winsQ qs).map num :=
  filter_map_num _ _ (fun q => jgt_num q 0) qs

theorem lossReturns_map (qs : List ℚ) :
    lossReturns (qs.map num) = (lossesQ qs).map num :=
  filter_map_num _ _ (fun q => jlt_num q 0) qs

theorem foldl_jadd_map (qs : List ℚ) :
    ∀ a : ℚ, (qs.map num).foldl jadd (num a) = num (a + qs.sum) := by
  induction qs with
  | nil => intro a; simp
  | cons q l ih =>
      intro a
      rw [List.map_cons, List.foldl_cons, jadd_num, ih, List.sum_cons, add_assoc]

theorem jsum_map (qs : List ℚ) : jsum (qs.map num) = num qs.sum := by
  have h := foldl_jadd_map qs 0
  rw [zero_add] at h
  exact h

theorem avgWinPct_map (qs : List ℚ) : avgWinPct (qs.map num) = num (avgWinQ qs) := by
  unfold avgWinPct avgWinQ
  rw [winReturns_map, List.length_map, jsum_map]
  by_cases h : 0 < (winsQ qs).length
  · rw [if_pos h, if_pos h, jdiv_num]
    exact_mod_cast Nat.pos_iff_ne_zero.1 h
  · rw [if_neg h, if_neg h]

theorem avgLossPct_map (qs : List ℚ) : avgLossPct (qs.map num) = num (avgLossQ qs) := by
  unfold avgLossPct avgLossQ
  rw [lossReturns_map, List.length_map, jsum_map]
  by_cases h : 0 < (lossesQ qs).length
  · rw [if_pos h, if_pos h, jdiv_num]
    · rfl
    · exact_mod_cast Nat.pos_iff_ne_zero.1 h
  · rw [if_neg h, if_neg h]

theorem winRate_map (qs : List ℚ) (h : qs ≠ []) :
    winRate (qs.map num) = num (winRateQ qs) := by
  unfold winRate winRateQ
  rw [winReturns_map, List.length_map, List.length_map, jdiv_num, jmul_num]
  exact_mod_cast List.length_eq_zero.not.2 h

theorem lossRate_map (qs : List ℚ) (h : qs ≠ []) :
    lossRate (qs.map num) = num (1 - winRateQ qs / 100) := by
  unfold lossRate
  rw [winRate_map qs h, jdiv_num _ _ (by norm_num), jsub_num]

end RiskModel

/-!
## Rational facts about the derived metrics
-/

theorem avgLossQ_nonneg (qs : List ℚ) : 0 ≤ avgLossQ qs := by
  unfold avgLossQ
  split
  · exact abs_nonneg _
  · exact le_refl 0

theorem sum_neg_of_forall_neg (l : List ℚ) (h : ∀ x ∈ l, x < 0) (hne : l ≠ []) :
    l.sum < 0 := by
  induction l with
  | nil => exact absurd rfl hne
  | cons q t ih =>
      rw [List.sum_cons]
      rcases eq_or_ne t [] with rfl | hts
      · simpa using h q (by simp)
      · have ht : t.sum < 0 := ih (fun x hx => h x (List.mem_cons_of_mem _ hx)) hts
        have hq : q < 0 := h q (by simp)
        linarith

theorem lossesQ_mem_neg (qs : List ℚ) (x : ℚ) (hx : x ∈ lossesQ qs) : x < 0 := by
  unfold lossesQ at hx
  simpa using (List.of_mem_filter hx)

theorem avgLossQ_pos (qs : List ℚ) (h : lossesQ qs ≠ []) : 0 < avgLossQ qs := by
  unfold avgLossQ
  have hlen : 0 < (lossesQ qs).length := List.length_pos.2 h
  rw [if_pos hlen]
  have hsum : (lossesQ qs).sum < 0 :=
    sum_neg_of_forall_neg _ (lossesQ_mem_neg qs) h
  have : (lossesQ qs).sum / ((lossesQ qs).length : ℚ) < 0 :=
    div_neg_of_neg_of_pos hsum (by exact_mod_cast hlen)
  exact abs_pos.2 (ne_of_lt this)

theorem avgLossQ_eq_zero (qs : List ℚ) (h : lossesQ qs = []) : avgLossQ qs = 0 := by
  unfold avgLossQ
  rw [h]
  simp

theorem lossesQ_ne_nil_of_avgLossQ_pos (qs : List ℚ) (h : 0 < avgLossQ qs) :
    lossesQ qs ≠ [] := by
  intro hnil
  rw [avgLossQ_eq_zero qs hnil] at h
  exact lt_irrefl 0 h

theorem winsQ_lossesQ_length (qs : List ℚ) :
    (winsQ qs).length + (lossesQ qs).length ≤ qs.length := by
  induction qs with
  | nil => simp [winsQ, lossesQ]
  | cons q t ih =>
      unfold winsQ lossesQ at *
      by_cases h : 0 < q
      · have h2 : ¬ q < 0 := by linarith
        simp only [List.filter_cons]
        rw [if_pos (by simpa using h), if_neg (by simpa using h2)]
        simp only [List.length_cons]
        omega
      · by_cases h2 : q < 0
        · simp only [List.filter_cons]
          rw [if_neg (by simpa using h), if_pos (by simpa using h2)]
          simp only [List.length_cons]
          omega
        · simp only [List.filter_cons]
          rw [if_neg (by simpa using h), if_neg (by simpa using h2)]
          simp only [List.length_cons]
          omega

theorem winsQ_length_lt (qs : List ℚ) (h : lossesQ qs ≠ []) :
    (winsQ qs).length < qs.length := by
  have h1 := winsQ_lossesQ_length qs
  have h2 : 0 < (lossesQ qs).length := List.length_pos.2 h
  omega

theorem winRateQ_nonneg (qs : List ℚ) : 0 ≤ winRateQ qs := by
  unfold winRateQ
  positivity

theorem winRateQ_le_100 (qs : List ℚ) (h : qs ≠ []) : winRateQ qs ≤ 100 := by
  unfold winRateQ
  have hq : (0 : ℚ) < (qs.length : ℚ) := by
    exact_mod_cast List.length_pos.2 h
  have hle : ((winsQ qs).length : ℚ) ≤ (qs.length : ℚ) := by
    exact_mod_cast List.length_filter_le _ qs
  have : ((winsQ qs).length : ℚ) / (qs.length : ℚ) ≤ 1 := (div_le_one hq).2 hle
  nlinarith

theorem winRateQ_lt_100 (qs : List ℚ) (h : lossesQ qs ≠ []) : winRateQ qs < 100 := by
  unfold winRateQ
  have hq : (0 : ℚ) < (qs.length : ℚ) := by
    have : qs ≠ [] := by
      intro hnil
      rw [hnil] at h
      exact h rfl
    exact_mod_cast List.length_pos.2 this
  have hlt : ((winsQ qs).length : ℚ) < (qs.length : ℚ) := by
    exact_mod_cast winsQ_length_lt qs h
  have : ((winsQ qs).length : ℚ) / (qs.length : ℚ) < 1 := (div_lt_one hq).2 hlt
  nlinarith

/-!
## Claim theorems: streak analyzer
-/

/-- C1, counterexample.  The description the spec gives of the streak pass fails on
the code in two ways.  (i) A zero-profit trade does not "break the current
streak without extending either counter": `isWin = net_profit > 0` is a
plain boolean, so a zero-profit trade is classified with the losses and
extends a losing streak — on `[-1, 0]` the code reports a losing streak of
2 where the claim demands 1.  (ii) At sequence end only the streak length is
flushed, not its cumulative P/L — on the single winning trade `[5]` the
claimed flush would give `maxConsecutiveProfit = 5`, the code leaves it 0. -/
theorem streaks_zero_profit_counterexample :
    (computeStreaks [-1, 0]).maxLossStreak = 2 ∧
    (computeStreaks [5]).maxConsecutiveProfit = 0 ∧ (5 : ℚ) ≠ 0 := by
  refine ⟨by decide, by decide, by norm_num⟩

/-- C1, amended.  The streak pass runs over the time-ordered trades with
`isWin = net_profit > 0`, so a zero-profit trade counts as a loss (it ends a
winning streak by starting a losing one, and extends a losing streak); on a
sign change the length and cumulative P/L of the ended streak are compared
against the maxima for its sign; at sequence end only the length of the final
streak is flushed, not its cumulative P/L.  Scenario D still holds: three
losses, then two wins, then one zero-profit trade yield
`max_consecutive_losses = 3` and `max_consecutive_wins = 2`, with the
cumulative P/L maxima equal to the two streak totals (both were flushed by
sign changes during the pass). -/
theorem streaks_scenario_d (l1 l2 l3 w1 w2 : ℚ)
    (h1 : l1 < 0) (h2 : l2 < 0) (h3 : l3 < 0) (h4 : 0 < w1) (h5 : 0 < w2) :
    (computeStreaks [l1, l2, l3, w1, w2, 0]).maxWinStreak = 2 ∧
    (computeStreaks [l1, l2, l3, w1, w2, 0]).maxLossStreak = 3 ∧
    (computeStreaks [l1, l2, l3, w1, w2, 0]).maxConsecutiveProfit = w1 + w2 ∧
    (computeStreaks [l1, l2, l3, w1, w2, 0]).maxConsecutiveLoss = l1 + l2 + l3 := by
  have e1 : ¬ (0 : ℚ) < l1 := by linarith
  have e2 : ¬ (0 : ℚ) < l2 := by linarith
  have e3 : ¬ (0 : ℚ) < l3 := by linarith
  have hl : l1 + l2 + l3 < 0 := by linarith
  have hw : 0 < w1 + w2 := by linarith
  simp [computeStreaks, streakStep, streakFlush, streakInit,
    e1, e2, e3, h4, h5, hl, hw, lt_irrefl]

/-- C1 witness: Scenario D at the concrete trades `[-1, -2, -3, 4, 5, 0]`. -/
theorem streaks_scenario_d_witness :
    (computeStreaks [-1, -2, -3, 4, 5, 0]).maxWinStreak = 2 ∧
    (computeStreaks [-1, -2, -3, 4, 5, 0]).maxLossStreak = 3 ∧
    (computeStreaks [-1, -2, -3, 4, 5, 0]).maxConsecutiveProfit = 4 + 5 ∧
    (computeStreaks [-1, -2, -3, 4, 5, 0]).maxConsecutiveLoss = -1 + -2 + -3 :=
  streaks_scenario_d (-1) (-2) (-3) 4 5 (by norm_num) (by norm_num)
    (by norm_num) (by norm_num) (by norm_num)

/-- C10: at every point of the pass, `maxConsecutiveProfit` is non-negative
and `maxConsecutiveLoss` is non-positive — both start at 0 and are only ever
replaced by a strictly larger (respectively strictly smaller) streak
total. -/
theorem streaks_maxima_signs (profits : List ℚ) :
    0 ≤ (computeStreaks profits).maxConsecutiveProfit ∧
    (computeStreaks profits).maxConsecutiveLoss ≤ 0 := by
  suffices h : ∀ (l : List ℚ) (s : Streaks),
      0 ≤ s.maxConsecutiveProfit → s.maxConsecutiveLoss ≤ 0 →
      0 ≤ (l.foldl streakStep s).maxConsecutiveProfit ∧
        (l.foldl streakStep s).maxConsecutiveLoss ≤ 0 by
    have hmain := h profits streakInit (le_refl 0) (le_refl 0)
    exact ⟨hmain.1, hmain.2⟩
  intro l
  induction l with
  | nil => intro s hp hn; exact ⟨hp, hn⟩
  | cons p t ih =>
      intro s hp hn
      rw [List.foldl_cons]
      have hstep : 0 ≤ (streakStep s p).maxConsecutiveProfit ∧
          (streakStep s p).maxConsecutiveLoss ≤ 0 := by
        unfold streakStep
        dsimp only
        split
        · exact ⟨hp, hn⟩
        · constructor
          · dsimp only
            split
            · next hc => exact le_of_lt (lt_of_le_of_lt hp hc.2)
            · exact hp
          · dsimp only
            split
            · next hc => exact le_of_lt (lt_of_lt_of_le hc.2 hn)
            · exact hn
      exact ih _ hstep.1 hstep.2

/-!
## Claim theorems: balance reconstruction
-/

/-- C3, counterexample.  The recorded balances of `balanceData` are rounded
to two decimals (`Math.round(runningBalance * 100) / 100`): with initial
balance 0 and the single trade `net_profit = 1/1000`, the recorded final
balance is 0 while `initial_balance + Σ net_profit = 1/1000`. -/
theorem balance_rounding_counterexample :
    balanceData 0 [1/1000] = [0] ∧
    runningFinalBalance [1/1000] 0 = 1/1000 ∧ (0 : ℚ) ≠ 1/1000 := by
  refine ⟨?_, ?_, by norm_num⟩
  · have hf : ⌊((0 : ℚ) + 1/1000) * 100 + 1/2⌋ = 0 := by
      have he : ((0 : ℚ) + 1/1000) * 100 + 1/2 = 3/5 := by norm_num
      rw [he, Int.floor_eq_iff]
      constructor <;> norm_num
    rw [show balanceData 0 [1/1000] = [round2 (0 + 1/1000)] from rfl, round2, jsRound, hf]
    norm_num
  · simp [runningFinalBalance]

/-- C3, amended.  The running-balance accumulator of src/unnamed/part_006
and src/unnamed/part_003 reconstructs `initial_balance + Σ net_profit`
exactly; the balance points that part_006 records for charting are that
exact balance rounded to two decimals, so each differs from the exact value
by at most 1/200. -/
theorem final_balance_exact (profits : List ℚ) (initB : ℚ) :
    runningFinalBalance profits initB = initB + profits.sum ∧
    (∀ x : ℚ, |round2 x - x| ≤ 1/200) := by
  constructor
  · induction profits generalizing initB with
    | nil => simp [runningFinalBalance]
    | cons p t ih =>
        rw [runningFinalBalance, List.foldl_cons, List.sum_cons]
        have := ih (initB + p)
        rw [runningFinalBalance] at this
        rw [this, add_assoc]
  · intro x
    have h1 : (⌊x * 100 + 1/2⌋ : ℚ) ≤ x * 100 + 1/2 := Int.floor_le _
    have h2 : x * 100 + 1/2 - 1 < (⌊x * 100 + 1/2⌋ : ℚ) := Int.sub_one_lt_floor _
    rw [abs_le]
    unfold round2 jsRound
    constructor <;> [linarith; linarith]

/-!
## Claim theorems: drawdown
-/

theorem jlt_num_true (q : ℚ) (d : JsNum) (h : jlt (num q) d = true) :
    d = JsNum.inf ∨ ∃ r : ℚ, d = num r ∧ q < r := by
  cases d with
  | num r => exact Or.inr ⟨r, rfl, by simpa [jlt] using h⟩
  | inf => exact Or.inl rfl
  | ninf => simp [jlt] at h
  | nan => simp [jlt] at h

/-- The running maximum drawdown is +∞ or a non-negative rational: it starts
at 0 and is only replaced through a strict JS `>` comparison. -/
theorem jsMaxDD_inf_or_nonneg (profits : List ℚ) (initB : ℚ) :
    jsMaxDD profits initB = JsNum.inf ∨
      ∃ q : ℚ, jsMaxDD profits initB = num q ∧ 0 ≤ q := by
  suffices h : ∀ (l : List ℚ) (s : DDState),
      (s.maxDD = JsNum.inf ∨ ∃ q : ℚ, s.maxDD = num q ∧ 0 ≤ q) →
      ((l.foldl ddStep s).maxDD = JsNum.inf ∨
        ∃ q : ℚ, (l.foldl ddStep s).maxDD = num q ∧ 0 ≤ q) by
    exact h profits _ (Or.inr ⟨0, rfl, le_refl 0⟩)
  have hif : ∀ dd m : JsNum, (m = JsNum.inf ∨ ∃ q : ℚ, m = num q ∧ 0 ≤ q) →
      ((if jgt dd m then dd else m) = JsNum.inf ∨
        ∃ q : ℚ, (if jgt dd m then dd else m) = num q ∧ 0 ≤ q) := by
    intro dd m hm
    split
    · next hgt =>
        rcases hm with hinf | ⟨q, hq, hq0⟩
        · subst hinf
          unfold jgt at hgt
          cases dd <;> simp [jlt] at hgt
        · subst hq
          unfold jgt at hgt
          rcases jlt_num_true q dd hgt with hdi | ⟨r, hdr, hqr⟩
          · exact Or.inl hdi
          · exact Or.inr ⟨r, hdr, hq0.trans hqr.le⟩
    · exact hm
  intro l
  induction l with
  | nil => intro s hs; exact hs
  | cons p t ih =>
      intro s hs
      rw [List.foldl_cons]
      refine ih _ ?_
      unfold ddStep
      dsimp only
      exact hif _ _ hs

/-- On a non-decreasing balance path the loop keeps
`runningBalance = peak` and `maxDD = 0`. -/
theorem ddStep_nonneg (c p : ℚ) (hp : 0 ≤ p) :
    ddStep { runningBalance := num c, peak := num c, maxDD := num 0 } p =
      { runningBalance := num (c + p), peak := num (c + p), maxDD := num 0 } := by
  unfold ddStep
  dsimp only
  have hpk : (if jgt (jadd (num c) (num p)) (num c) then jadd (num c) (num p)
      else num c) = num (c + p) := by
    rw [jadd_num, jgt_num]
    by_cases h : c < c + p
    · rw [if_pos (by simpa using h)]
    · have : p = 0 := by linarith [not_lt.1 h]
      subst this
      rw [if_neg (by simp [h])]
      norm_num
  rw [hpk, jadd_num]
  have hsub : jsub (num (c + p)) (num (c + p)) = num 0 := by
    rw [jsub_num, sub_self]
  rw [hsub]
  by_cases hz : c + p = 0
  · have : jdiv (num 0) (num (c + p)) = JsNum.nan := by
      rw [hz]
      simp [jdiv]
    rw [this]
    simp [jmul, jgt, jlt]
  · have : jdiv (num 0) (num (c + p)) = num 0 := by
      rw [jdiv_num _ _ hz, zero_div]
    rw [this, jmul_num, zero_mul, jgt_num]
    simp

theorem jsMaxDD_nonneg_path (profits : List ℚ) (initB : ℚ)
    (h : ∀ p ∈ profits, 0 ≤ p) : jsMaxDD profits initB = num 0 := by
  suffices hgen : ∀ (l : List ℚ) (c : ℚ), (∀ p ∈ l, 0 ≤ p) →
      ∃ d : ℚ, l.foldl ddStep { runningBalance := num c, peak := num c, maxDD := num 0 } =
        { runningBalance := num d, peak := num d, maxDD := num 0 } by
    obtain ⟨d, hd⟩ := hgen profits initB h
    rw [jsMaxDD, hd]
  intro l
  induction l with
  | nil => intro c _; exact ⟨c, rfl⟩
  | cons p t ih =>
      intro c hc
      rw [List.foldl_cons, ddStep_nonneg c p (hc p (by simp))]
      exact ih (c + p) fun x hx => hc x (List.mem_cons_of_mem _ hx)

/-- C4, counterexample.  The drawdown loop of src/unnamed/part_006 does not
guard the division by `peak`: with initial balance 0 and the single losing
trade `-50`, the per-point drawdown is `(0 - (-50)) / 0 * 100 = +∞` — a
division by zero the claim says cannot occur — and it becomes
`max_drawdown_pct`, where the claim (per-point drawdown 0 whenever
peak ≤ 0) demands 0. -/
theorem maxDD_div_zero_counterexample :
    jsMaxDD [-50] 0 = JsNum.inf ∧ JsNum.inf ≠ num 0 := by
  constructor
  · rw [jsMaxDD, List.foldl_cons, List.foldl_nil]
    norm_num [ddStep, jadd_num, jgt_num, jsub_num, jdiv, jmul, jgt, jlt]
  · simp

/-- C4, amended.  In src/unnamed/part_006 the loop is unguarded:
`max_drawdown_pct` is always either +∞ (possible only through a zero peak)
or a non-negative rational, and it is 0 whenever no trade loses money (the
balance path is non-decreasing).  The per-day drawdown of ChartPanel.tsx is
the one that is defined as 0 whenever its running peak is ≤ 0. -/
theorem maxDD_spec (profits : List ℚ) (initB : ℚ) :
    (jsMaxDD profits initB = JsNum.inf ∨
      ∃ q : ℚ, jsMaxDD profits initB = num q ∧ 0 ≤ q) ∧
    ((∀ p ∈ profits, 0 ≤ p) → jsMaxDD profits initB = num 0) ∧
    (∀ pk bal : ℚ, pk ≤ 0 → chartDrawdown pk bal = 0) :=
  ⟨jsMaxDD_inf_or_nonneg profits initB,
   jsMaxDD_nonneg_path profits initB,
   fun pk bal h => by rw [chartDrawdown, if_neg (not_lt.2 h)]⟩

/-- C4 witness: a concrete non-decreasing path has `max_drawdown_pct = 0`,
and the guarded drawdown of ChartPanel is 0 at a non-positive peak. -/
theorem maxDD_spec_witness :
    jsMaxDD [2] 100 = num 0 ∧ chartDrawdown (-5) 3 = 0 :=
  ⟨(maxDD_spec [2] 100).2.1 (by norm_num),
   (maxDD_spec [2] 100).2.2 (-5) 3 (by norm_num)⟩

/-!
## Claim theorems: profit factor
-/

namespace RiskModel

theorem totalWins_map (qs : List ℚ) : totalWins (qs.map num) = num (winsQ qs).sum := by
  unfold totalWins
  rw [winReturns_map, jsum_map]

theorem totalLosses_map (qs : List ℚ) :
    totalLosses (qs.map num) = num |(lossesQ qs).sum| := by
  unfold totalLosses
  rw [lossReturns_map, jsum_map]
  rfl

theorem profitFactor_map (qs : List ℚ) :
    profitFactor (qs.map num) =
      if 0 < |(lossesQ qs).sum| then num ((winsQ qs).sum / |(lossesQ qs).sum|)
      else num 0 := by
  unfold profitFactor
  rw [totalLosses_map, totalWins_map, jgt_num]
  by_cases h : 0 < |(lossesQ qs).sum|
  · rw [if_pos (by simpa using h), if_pos h, jdiv_num _ _ (ne_of_gt h)]
  · rw [if_neg (by simpa using h), if_neg h]

end RiskModel

/-- C2, counterexample.  With the single winning trade `net_profit = 5`
(initial balance 100) there are no losing trades — gross loss is 0 and
gross profit is positive — yet the profit factor of src/unnamed/part_010 is
the plain number 0, not an "unbounded" sentinel: the display rule of
src/unnamed/part_007 (`>= 999` renders as infinity) does not fire on it. -/
theorem profitFactor_no_sentinel_counterexample :
    RiskModel.profitFactor (RiskModel.tradeReturns [5] 100) = num 0 ∧
    (winsQ (returnsQ [5] 100)).sum = 5 ∧ (lossesQ (returnsQ [5] 100)).sum = 0 ∧
    profitFactorRendersUnbounded 0 = false := by
  have hq : returnsQ [5] 100 = [5] := by norm_num [returnsQ]
  have hw : winsQ [5] = [5] := by norm_num [winsQ]
  have hl : lossesQ [5] = [] := by norm_num [lossesQ]
  refine ⟨?_, ?_, ?_, ?_⟩
  · rw [RiskModel.tradeReturns_eq_map _ _ (by norm_num), hq,
      RiskModel.profitFactor_map, hl]
    norm_num
  · rw [hq, hw]
    norm_num
  · rw [hq, hl]
    norm_num
  · rw [profitFactorRendersUnbounded]
    norm_num

/-- C2, amended.  The profit factor of src/unnamed/part_010 equals
`gross_profit / |gross_loss|` whenever the gross loss is non-zero, and
equals 0 — never an unbounded sentinel — whenever the gross loss is zero,
even with positive gross profit; it is a plain rational in both cases (no
NaN, infinity or division error).  The only "unbounded" handling in the
repository is the hard-coded `>= 999` rendering rule of
src/unnamed/part_007. -/
theorem profitFactor_spec (profits : List ℚ) (initB : ℚ) (h : initB ≠ 0) :
    ((lossesQ (returnsQ profits initB)).sum ≠ 0 →
      RiskModel.profitFactor (RiskModel.tradeReturns profits initB) =
        num ((winsQ (returnsQ profits initB)).sum /
          |(lossesQ (returnsQ profits initB)).sum|)) ∧
    ((lossesQ (returnsQ profits initB)).sum = 0 →
      RiskModel.profitFactor (RiskModel.tradeReturns profits initB) = num 0) := by
  rw [RiskModel.tradeReturns_eq_map _ _ h, RiskModel.profitFactor_map]
  constructor
  · intro hgl
    rw [if_pos (abs_pos.2 hgl)]
  · intro hgl
    rw [hgl, abs_zero, if_neg (lt_irrefl 0)]

/-- C2 witness: with trades `[5, -2]` the gross loss is −2, so the profit
factor is `5 / 2`; with the single trade `[5]` it is 0. -/
theorem profitFactor_spec_witness :
    RiskModel.profitFactor (RiskModel.tradeReturns [5, -2] 100) = num (5/2) ∧
    RiskModel.profitFactor (RiskModel.tradeReturns [5] 100) = num 0 := by
  have hq2 : returnsQ [5, -2] 100 = [5, -2] := by norm_num [returnsQ]
  constructor
  · have h := (profitFactor_spec [5, -2] 100 (by norm_num)).1
    rw [hq2] at h
    have hl : lossesQ [5, -2] = [-2] := by norm_num [lossesQ]
    have hw : winsQ [5, -2] = [5] := by norm_num [winsQ]
    rw [hl, hw] at h
    have := h (by norm_num)
    rw [this]
    norm_num
  · have h := (profitFactor_spec [5] 100 (by norm_num)).2
    have hq : returnsQ [5] 100 = [5] := by norm_num [returnsQ]
    rw [hq] at h
    have hl : lossesQ [5] = [] := by norm_num [lossesQ]
    rw [hl] at h
    exact h (by norm_num)

/-!
## Claim theorems: Kelly sizing
-/

namespace RiskModel

theorem riskReward_map (qs : List ℚ) (hpos : 0 < avgLossQ qs) :
    riskReward (qs.map num) = num (avgWinQ qs / avgLossQ qs) := by
  unfold riskReward
  rw [avgLossPct_map, avgWinPct_map, jgt_num, if_pos (by simpa using hpos),
    jdiv_num _ _ (ne_of_gt hpos)]

theorem kellyPct_map_zero (qs : List ℚ) (h : ¬ 0 < avgLossQ qs) :
    kellyPct (qs.map num) = num 0 := by
  unfold kellyPct
  rw [avgLossPct_map, jgt_num, if_neg (by simpa using h)]

theorem kellyPct_map_formula (qs : List ℚ) (hne : qs ≠ []) (hpos : 0 < avgLossQ qs)
    (r : ℚ) (hr : avgWinQ qs / avgLossQ qs = r) (hr0 : r ≠ 0) :
    kellyPct (qs.map num) =
      num ((winRateQ qs / 100 - (1 - winRateQ qs / 100) / r) * 100) := by
  unfold kellyPct
  rw [avgLossPct_map, jgt_num, if_pos (by simpa using hpos), riskReward_map qs hpos,
    hr, winRate_map qs hne, jdiv_num _ _ (by norm_num : (100 : ℚ) ≠ 0), jmul_num,
    jsub_num, jsub_num, jdiv_num _ _ hr0, jmul_num]
  congr 1
  field_simp
  ring

theorem kellyPct_map_ninf (qs : List ℚ) (hne : qs ≠ []) (hpos : 0 < avgLossQ qs)
    (hz : avgWinQ qs / avgLossQ qs = 0) :
    kellyPct (qs.map num) = JsNum.ninf := by
  unfold kellyPct
  rw [avgLossPct_map, jgt_num, if_pos (by simpa using hpos), riskReward_map qs hpos,
    hz, winRate_map qs hne, jdiv_num _ _ (by norm_num : (100 : ℚ) ≠ 0), jmul_num,
    jsub_num, jsub_num]
  have hwlt : winRateQ qs < 100 :=
    winRateQ_lt_100 qs (lossesQ_ne_nil_of_avgLossQ_pos qs hpos)
  have hneg : winRateQ qs / 100 * 0 - (1 - winRateQ qs / 100) < 0 := by
    rw [mul_zero]
    linarith
  rw [jdiv_num_zero_neg _ hneg, jmul_ninf_num 100 (by norm_num)]

theorem kellyHalf_of_num (rs : List JsNum) (k : ℚ) (h : kellyPct rs = num k) :
    kellyHalf rs = num (k / 2) := by
  unfold kellyHalf
  rw [h, jdiv_num _ _ (by norm_num : (2 : ℚ) ≠ 0)]

theorem kellyHalf_of_ninf (rs : List JsNum) (h : kellyPct rs = JsNum.ninf) :
    kellyHalf rs = JsNum.ninf := by
  unfold kellyHalf
  rw [h, jdiv_ninf_num 2 (by norm_num)]

end RiskModel

/-- C5, counterexample.  With the single losing trade `-5` (initial balance
100) there are no winning trades: `avgLossPct = 5 > 0`, so the guard is
passed, but `riskRewardRatio = 0 / 5 = 0` and the Kelly expression divides
by it — `kellyPct` is `-Infinity`, not the 0 the claim requires whenever
`risk_reward_ratio ≤ 0`. -/
theorem kelly_neg_infinity_counterexample :
    RiskModel.riskReward (RiskModel.tradeReturns [-5] 100) = num 0 ∧
    RiskModel.kellyPct (RiskModel.tradeReturns [-5] 100) = JsNum.ninf ∧
    JsNum.ninf ≠ num 0 := by
  have hq : returnsQ [-5] 100 = [-5] := by norm_num [returnsQ]
  have hl : lossesQ [-5] = [-5] := by norm_num [lossesQ]
  have hw : winsQ [-5] = [] := by norm_num [winsQ]
  have hal : avgLossQ [-5] = 5 := by
    rw [avgLossQ, hl]
    norm_num
  have haw : avgWinQ [-5] = 0 := by
    rw [avgWinQ, hw]
    norm_num
  have hmap := RiskModel.tradeReturns_eq_map [-5] 100 (by norm_num)
  rw [hq] at hmap
  refine ⟨?_, ?_, by simp⟩
  · rw [hmap, RiskModel.riskReward_map _ (by rw [hal]; norm_num), haw]
    norm_num
  · rw [hmap, RiskModel.kellyPct_map_ninf _ (by simp) (by rw [hal]; norm_num)
      (by rw [haw, hal]; norm_num)]

/-- C5, amended.  With a non-zero initial balance and a non-empty trade
list: `kellyPct` is 0 when `avgLossPct ≤ 0` (the guard the code actually tests); when
`avgLossPct > 0` and the risk-reward ratio `r` is non-zero it equals
`(win_rate − (1 − win_rate) / r) · 100` with `win_rate` as a fraction (the
spec formula, as a percentage); when `avgLossPct > 0` but the risk-reward
ratio is 0 (no winning trades) it is `-Infinity`, not 0; and
`kellyHalf = kellyPct / 2` in both shapes. -/
theorem kelly_spec (profits : List ℚ) (initB : ℚ)
    (h1 : profits ≠ []) (h2 : initB ≠ 0) :
    (¬ 0 < avgLossQ (returnsQ profits initB) →
      RiskModel.kellyPct (RiskModel.tradeReturns profits initB) = num 0) ∧
    (∀ r : ℚ, 0 < avgLossQ (returnsQ profits initB) →
      avgWinQ (returnsQ profits initB) / avgLossQ (returnsQ profits initB) = r →
      r ≠ 0 →
      RiskModel.kellyPct (RiskModel.tradeReturns profits initB) =
        num ((winRateQ (returnsQ profits initB) / 100 -
          (1 - winRateQ (returnsQ profits initB) / 100) / r) * 100)) ∧
    (0 < avgLossQ (returnsQ profits initB) →
      avgWinQ (returnsQ profits initB) / avgLossQ (returnsQ profits initB) = 0 →
      RiskModel.kellyPct (RiskModel.tradeReturns profits initB) = JsNum.ninf) ∧
    (∀ k : ℚ, RiskModel.kellyPct (RiskModel.tradeReturns profits initB) = num k →
      RiskModel.kellyHalf (RiskModel.tradeReturns profits initB) = num (k / 2)) ∧
    (RiskModel.kellyPct (RiskModel.tradeReturns profits initB) = JsNum.ninf →
      RiskModel.kellyHalf (RiskModel.tradeReturns profits initB) = JsNum.ninf) := by
  have hne : returnsQ profits initB ≠ [] := by
    unfold returnsQ
    simpa using h1
  rw [RiskModel.tradeReturns_eq_map _ _ h2]
  exact ⟨RiskModel.kellyPct_map_zero _,
    fun r hpos hr hr0 => RiskModel.kellyPct_map_formula _ hne hpos r hr hr0,
    RiskModel.kellyPct_map_ninf _ hne,
    fun k h => RiskModel.kellyHalf_of_num _ k h,
    fun h => RiskModel.kellyHalf_of_ninf _ h⟩

/-- C5 witness: with trades `[10, -5]` and initial balance 100 the
risk-reward ratio is 2 and `kellyPct = (1/2 − (1/2)/2) · 100 = 25`. -/
theorem kelly_spec_witness :
    RiskModel.kellyPct (RiskModel.tradeReturns [10, -5] 100) = num 25 := by
  have hq : returnsQ [10, -5] 100 = [10, -5] := by norm_num [returnsQ]
  have hl : lossesQ [10, -5] = [-5] := by norm_num [lossesQ]
  have hw : winsQ [10, -5] = [10] := by norm_num [winsQ]
  have hal : avgLossQ (returnsQ [10, -5] 100) = 5 := by
    rw [hq, avgLossQ, hl]
    norm_num
  have haw : avgWinQ (returnsQ [10, -5] 100) = 10 := by
    rw [hq, avgWinQ, hw]
    norm_num
  have hwr : winRateQ (returnsQ [10, -5] 100) = 50 := by
    rw [hq, winRateQ, hw]
    norm_num
  have h := (kelly_spec [10, -5] 100 (by simp) (by norm_num)).2.1 2
    (by rw [hal]; norm_num) (by rw [haw, hal]; norm_num) (by norm_num)
  rw [h, hwr]
  norm_num

/-!
## Claim theorems: recommended risk cap
-/

/-- Every tier branch of the recommendation block yields at most 5 as long
as Half-Kelly is a rational or `-Infinity`. -/
theorem recommendedPct_le5 (score : ℤ) (kh : JsNum)
    (h : (∃ k : ℚ, kh = num k) ∨ kh = JsNum.ninf) :
    jle (RiskModel.recommendedPct score kh) (num 5) = true := by
  rcases h with ⟨k, rfl⟩ | rfl <;> unfold RiskModel.recommendedPct
  · split_ifs
    · show jle (num (min k 5)) (num 5) = true
      rw [jle_num]
      exact decide_eq_true (min_le_right k 5)
    · rw [jdiv_num _ _ (by norm_num : (2 : ℚ) ≠ 0)]
      show jle (num (min (k / 2) 3)) (num 5) = true
      rw [jle_num]
      exact decide_eq_true ((min_le_right _ 3).trans (by norm_num))
    · rw [jdiv_num _ _ (by norm_num : (4 : ℚ) ≠ 0)]
      show jle (num (min 1 (k / 4))) (num 5) = true
      rw [jle_num]
      exact decide_eq_true ((min_le_left _ _).trans (by norm_num))
    · rw [jle_num]
      exact decide_eq_true (by norm_num)
  · split_ifs
    · rfl
    · rw [jdiv_ninf_num 2 (by norm_num)]
      rfl
    · rw [jdiv_ninf_num 4 (by norm_num)]
      rfl
    · rw [jle_num]
      exact decide_eq_true (by norm_num)

/-- With a non-zero initial balance and non-empty trades, Half-Kelly is
either a rational or `-Infinity` (never NaN). -/
theorem kellyHalf_num_or_ninf (profits : List ℚ) (initB : ℚ)
    (h1 : profits ≠ []) (h2 : initB ≠ 0) :
    (∃ k : ℚ, RiskModel.kellyHalf (RiskModel.tradeReturns profits initB) = num k) ∨
    RiskModel.kellyHalf (RiskModel.tradeReturns profits initB) = JsNum.ninf := by
  have hne : returnsQ profits initB ≠ [] := by
    unfold returnsQ
    simpa using h1
  rw [RiskModel.tradeReturns_eq_map _ _ h2]
  by_cases hpos : 0 < avgLossQ (returnsQ profits initB)
  · by_cases hr : avgWinQ (returnsQ profits initB) / avgLossQ (returnsQ profits initB) = 0
    · exact Or.inr (RiskModel.kellyHalf_of_ninf _
        (RiskModel.kellyPct_map_ninf _ hne hpos hr))
    · exact Or.inl ⟨_, RiskModel.kellyHalf_of_num _ _
        (RiskModel.kellyPct_map_formula _ hne hpos _ rfl hr)⟩
  · exact Or.inl ⟨_, RiskModel.kellyHalf_of_num _ _
      (RiskModel.kellyPct_map_zero _ hpos)⟩

/-- C6: for every non-empty trade list (and non-zero initial balance) and
every value of the standard-deviation metric, the recommended risk
percentage is at most 5, in every branch of the composite-score tiering —
regardless of how large `kellyPct` is. -/
theorem recommended_risk_capped (profits : List ℚ) (initB : ℚ) (sd : JsNum)
    (h1 : profits ≠ []) (h2 : initB ≠ 0) :
    jle (RiskModel.recommendedRiskPct profits initB sd) (num 5) = true := by
  unfold RiskModel.recommendedRiskPct
  exact recommendedPct_le5 _ _ (kellyHalf_num_or_ninf profits initB h1 h2)

/-- C6 witness: the cap at the concrete trades `[10, -5]`, balance 100,
standard deviation 1. -/
theorem recommended_risk_capped_witness :
    jle (RiskModel.recommendedRiskPct [10, -5] 100 (num 1)) (num 5) = true :=
  recommended_risk_capped [10, -5] 100 (num 1) (by simp) (by norm_num)

/-!
## Claim theorems: drawdown-risk table
-/

theorem consecutive_map_sentinel (qs : List ℚ) (level : ℚ) (h : avgLossQ qs ≤ 0) :
    RiskModel.consecutiveLossesFor (qs.map num) level = num 999 := by
  have hc : jle (RiskModel.avgLossPct (qs.map num)) (num 0) = true := by
    rw [RiskModel.avgLossPct_map, jle_num]
    exact decide_eq_true h
  unfold RiskModel.consecutiveLossesFor
  rw [if_pos hc]

theorem consecutive_map_ceil (qs : List ℚ) (level : ℚ) (h : 0 < avgLossQ qs) :
    RiskModel.consecutiveLossesFor (qs.map num) level =
      num ((⌈level / avgLossQ qs⌉ : ℤ) : ℚ) := by
  have hc : jle (RiskModel.avgLossPct (qs.map num)) (num 0) = false := by
    rw [RiskModel.avgLossPct_map, jle_num]
    exact decide_eq_false (not_le.2 h)
  unfold RiskModel.consecutiveLossesFor
  rw [if_neg (by simp [hc]), RiskModel.avgLossPct_map, jdiv_num _ _ (ne_of_gt h)]
  rfl

theorem tableProbability_map_sentinel (qs : List ℚ) (level : ℚ) (hne : qs ≠ [])
    (h : avgLossQ qs ≤ 0) :
    RiskModel.tableProbability (qs.map num) level =
      num ((1 - winRateQ qs / 100) ^ 999 * 100) := by
  unfold RiskModel.tableProbability
  rw [consecutive_map_sentinel qs level h, RiskModel.lossRate_map qs hne,
    show (num (999 : ℚ)) = num ((999 : ℕ) : ℚ) by norm_num, jpow_num_nat, jmul_num]

theorem tableProbability_map_ceil (qs : List ℚ) (level : ℚ) (hne : qs ≠ [])
    (h : 0 < avgLossQ qs) (hlev : 0 ≤ level) :
    RiskModel.tableProbability (qs.map num) level =
      num ((1 - winRateQ qs / 100) ^ (⌈level / avgLossQ qs⌉).toNat * 100) := by
  unfold RiskModel.tableProbability
  rw [consecutive_map_ceil qs level h, RiskModel.lossRate_map qs hne,
    jpow_num_int _ _ (Int.ceil_nonneg (div_nonneg hlev h.le)), jmul_num]

/-- C7, amended.  In the part_010 estimator — the one implementing the
design of spec section 4.7 — the probability column of the Drawdown Risk
Analysis table is non-increasing across the fixed level set
`[10, 20, 30, 50]`: a deeper drawdown needs at least as many consecutive
losses (`Math.ceil` is monotone), and the loss rate lies in `[0, 1]`, so
its power can only shrink.  When `avgLossPct ≤ 0` every level gets the
sentinel 999 and all probabilities coincide.  (The separate log-based table
of DailyStats.tsx is not monotone: see the counterexample below.) -/
theorem ruin_probability_antitone (profits : List ℚ) (initB : ℚ) (l1 l2 : ℚ)
    (h1 : profits ≠ []) (h2 : initB ≠ 0)
    (hl1 : l1 ∈ RiskModel.drawdownLevels) (hl2 : l2 ∈ RiskModel.drawdownLevels)
    (h12 : l1 < l2) :
    jle (RiskModel.tableProbability (RiskModel.tradeReturns profits initB) l2)
      (RiskModel.tableProbability (RiskModel.tradeReturns profits initB) l1) = true := by
  have hne : returnsQ profits initB ≠ [] := by
    unfold returnsQ
    simpa using h1
  rw [RiskModel.tradeReturns_eq_map _ _ h2]
  have hr0 : 0 ≤ 1 - winRateQ (returnsQ profits initB) / 100 := by
    have := winRateQ_le_100 _ hne
    linarith
  have hr1 : 1 - winRateQ (returnsQ profits initB) / 100 ≤ 1 := by
    have := winRateQ_nonneg (returnsQ profits initB)
    linarith
  have hpos1 : 0 < l1 := by
    have hm : l1 ∈ ([10, 20, 30, 50] : List ℚ) := hl1
    fin_cases hm <;> norm_num
  have hpos2 : 0 < l2 := by
    have hm : l2 ∈ ([10, 20, 30, 50] : List ℚ) := hl2
    fin_cases hm <;> norm_num
  by_cases ha : 0 < avgLossQ (returnsQ profits initB)
  · rw [tableProbability_map_ceil _ l1 hne ha hpos1.le,
      tableProbability_map_ceil _ l2 hne ha hpos2.le, jle_num]
    apply decide_eq_true
    have hceil : ⌈l1 / avgLossQ (returnsQ profits initB)⌉ ≤
        ⌈l2 / avgLossQ (returnsQ profits initB)⌉ :=
      Int.ceil_le_ceil ((div_le_div_iff_of_pos_right ha).2 h12.le)
    exact mul_le_mul_of_nonneg_right
      (pow_le_pow_of_le_one hr0 hr1 (Int.toNat_le_toNat hceil)) (by norm_num)
  · rw [tableProbability_map_sentinel _ l1 hne (not_lt.1 ha),
      tableProbability_map_sentinel _ l2 hne (not_lt.1 ha), jle_num]
    exact decide_eq_true (le_refl _)

/-- C7 witness: levels 10 and 20 at the concrete trades `[10, -5]`,
balance 100. -/
theorem ruin_probability_antitone_witness :
    jle (RiskModel.tableProbability (RiskModel.tradeReturns [10, -5] 100) 20)
      (RiskModel.tableProbability (RiskModel.tradeReturns [10, -5] 100) 10) = true :=
  ruin_probability_antitone [10, -5] 100 10 20 (by simp) (by norm_num)
    (by simp [RiskModel.drawdownLevels]) (by simp [RiskModel.drawdownLevels])
    (by norm_num)

/-- Justification of the log bracket used against the DailyStats table: the
exact natural-log quotient that the 90% level feeds to `Math.ceil` on the
counterexample input lies strictly between 229 and 230 (its value is about
229.105), so every implementation of `Math.log` with relative error below
0.0004 — twelve orders of magnitude coarser than double precision — yields
a quotient whose ceiling is 230.  The proof reduces the transcendental
bounds to the integer facts `100^229 < 10·99^229` and
`10·99^230 ≤ 100^230`. -/
theorem dailyLog_quotient_bracket :
    229 < Real.log (1/10) / Real.log (99/100) ∧
    Real.log (1/10) / Real.log (99/100) ≤ 230 := by
  have hkey : Real.log (1/10) / Real.log (99/100) =
      Real.log 10 / Real.log (100/99) := by
    rw [show (1 : ℝ)/10 = (10 : ℝ)⁻¹ by norm_num, Real.log_inv,
      show (99 : ℝ)/100 = ((100 : ℝ)/99)⁻¹ by norm_num, Real.log_inv, neg_div_neg_eq]
  have hlogr : 0 < Real.log (100/99) := Real.log_pos (by norm_num)
  constructor
  · rw [hkey, lt_div_iff₀ hlogr]
    have h1 : (229 : ℝ) * Real.log (100/99) =
        Real.log (((100 : ℝ)/99) ^ (229 : ℕ)) := by
      rw [Real.log_pow]
      norm_num
    rw [h1]
    apply Real.log_lt_log (by positivity)
    rw [div_pow, div_lt_iff₀ (by positivity)]
    norm_num
  · rw [hkey, div_le_iff₀ hlogr]
    have h2 : (230 : ℝ) * Real.log (100/99) =
        Real.log (((100 : ℝ)/99) ^ (230 : ℕ)) := by
      rw [Real.log_pow]
      norm_num
    rw [h2]
    apply Real.log_le_log (by norm_num)
    rw [div_pow, le_div_iff₀ (by positivity)]
    norm_num

/-- With one win of 100 and one loss of 100 the DailyStats table is not
monotone, for every `Math.log` whose values at the three reached inputs
respect the bracket of `dailyLog_quotient_bracket`: the win rate is 1/2 and
the per-trade loss fraction 1/100; at the 90% level the log formula demands
230 consecutive losses, giving probability `(1/2)^23 · 100`, while at the
100% level `Math.log(0) = -Infinity` makes the quotient non-finite and the
linear fallback demands only 100, giving the larger probability
`(1/2)^10 · 100`. -/
theorem dailyRuin_violation_general (jlog : JsNum → JsNum) (a b : ℚ)
    (hA : jlog (num (1/10)) = num a) (hB : jlog (num (99/100)) = num b)
    (h0 : jlog (num 0) = JsNum.ninf) (hb : b < 0)
    (h1 : 229 < a / b) (h2 : a / b ≤ 230) :
    DailyRisk.dailyProbability jlog [100, -100] 90 = num (25/2097152) ∧
    DailyRisk.dailyProbability jlog [100, -100] 100 = num (25/256) := by
  have hwins : DailyRisk.winsD [100, -100] = [100] := by
    norm_num [DailyRisk.winsD]
  have hloss : DailyRisk.lossesD [100, -100] = [-100] := by
    norm_num [DailyRisk.lossesD]
  have hw : DailyRisk.winRateD [100, -100] = 1/2 := by
    rw [DailyRisk.winRateD, hwins]
    norm_num
  have hal : DailyRisk.avgLossD [100, -100] = 100 := by
    rw [DailyRisk.avgLossD, hloss]
    norm_num
  have hx : DailyRisk.lossPerTradeAvgD [100, -100] = 1/100 := by
    rw [DailyRisk.lossPerTradeAvgD, hal]
    norm_num
  have hc90raw : DailyRisk.dailyConsecutiveRaw jlog [100, -100] 90 = num 230 := by
    unfold DailyRisk.dailyConsecutiveRaw
    rw [hx, if_pos (by norm_num : (0 : ℚ) < 1/100),
      show ((100 : ℚ) - 90) / 100 = 1/10 by norm_num,
      show (1 : ℚ) - 1/100 = 99/100 by norm_num, hA, hB, jdiv_num _ _ hb.ne]
    have hceil : ⌈a / b⌉ = (230 : ℤ) :=
      Int.ceil_eq_iff.2 ⟨by push_cast; linarith, by push_cast; linarith⟩
    rw [show jceil (num (a / b)) = num ((⌈a / b⌉ : ℤ) : ℚ) from rfl, hceil]
    norm_num
  have hc90 : DailyRisk.dailyConsecutive jlog [100, -100] 90 = num 230 := by
    unfold DailyRisk.dailyConsecutive
    rw [hc90raw]
    have hcond : (jlt (num (230 : ℚ)) (num 0) || !(jsFinite (num (230 : ℚ)))) =
        false := by
      rw [jlt_num, decide_eq_false (by norm_num : ¬ (230 : ℚ) < 0)]
      rfl
    rw [if_neg (by simp [hcond])]
  have hc100raw : DailyRisk.dailyConsecutiveRaw jlog [100, -100] 100 = JsNum.inf := by
    unfold DailyRisk.dailyConsecutiveRaw
    rw [hx, if_pos (by norm_num : (0 : ℚ) < 1/100),
      show ((100 : ℚ) - 100) / 100 = 0 by norm_num,
      show (1 : ℚ) - 1/100 = 99/100 by norm_num, h0, hB, jdiv_ninf_num_neg b hb]
    rfl
  have hc100 : DailyRisk.dailyConsecutive jlog [100, -100] 100 = num 100 := by
    unfold DailyRisk.dailyConsecutive
    rw [hc100raw, if_pos (by rfl), hx,
      show (1/100 : ℚ) * 100 = 1 by norm_num,
      jdiv_num _ _ (by norm_num : (1 : ℚ) ≠ 0),
      show (100 : ℚ) / 1 = 100 by norm_num]
    rw [show jceil (num (100 : ℚ)) = num ((⌈(100 : ℚ)⌉ : ℤ) : ℚ) from rfl,
      show ⌈(100 : ℚ)⌉ = (100 : ℤ) by norm_num]
    norm_num
  constructor
  · unfold DailyRisk.dailyProbability DailyRisk.dailyProbabilityRaw
    rw [hw, if_neg (by norm_num : ¬ (1/2 : ℚ) < 1/2), hc90,
      jdiv_num _ _ (by norm_num : (10 : ℚ) ≠ 0),
      show (230 : ℚ) / 10 = 23 by norm_num,
      show (1 : ℚ) - 1/2 = 1/2 by norm_num,
      show (num (23 : ℚ)) = num ((23 : ℕ) : ℚ) by norm_num, jpow_num_nat, jmul_num,
      show (1/2 : ℚ) ^ (23 : ℕ) * 100 = 25/2097152 by norm_num,
      jmin_num, min_eq_right (by norm_num : (25/2097152 : ℚ) ≤ 100),
      jmax_num, max_eq_right (by norm_num : (0 : ℚ) ≤ 25/2097152)]
  · unfold DailyRisk.dailyProbability DailyRisk.dailyProbabilityRaw
    rw [hw, if_neg (by norm_num : ¬ (1/2 : ℚ) < 1/2), hc100,
      jdiv_num _ _ (by norm_num : (10 : ℚ) ≠ 0),
      show (100 : ℚ) / 10 = 10 by norm_num,
      show (1 : ℚ) - 1/2 = 1/2 by norm_num,
      show (num (10 : ℚ)) = num ((10 : ℕ) : ℚ) by norm_num, jpow_num_nat, jmul_num,
      show (1/2 : ℚ) ^ (10 : ℕ) * 100 = 25/256 by norm_num,
      jmin_num, min_eq_right (by norm_num : (25/256 : ℚ) ≤ 100),
      jmax_num, max_eq_right (by norm_num : (0 : ℚ) ≤ 25/256)]

/-- C7, counterexample.  The claim also covers the risk-of-ruin table of
DailyStats.tsx, and there monotonicity fails: with one win of 100 and one
loss of 100, levels 90 and 100 both lie in its level set, yet the reported
probability rises from `(1/2)^23 · 100` at the 90% level to the larger
`(1/2)^10 · 100` at the 100% level, because the infinite log quotient at
100% triggers a linear fallback that demands far fewer consecutive losses
than the log formula demands at 90%.  `mathLogSample` is a conforming
representative of `Math.log`; `dailyRuin_violation_general` proves the same
values for every representative within the justified bracket. -/
theorem daily_ruin_nonmonotone_counterexample :
    (90 : ℚ) ∈ DailyRisk.dailyLossLevels ∧
    (100 : ℚ) ∈ DailyRisk.dailyLossLevels ∧
    DailyRisk.dailyProbability DailyRisk.mathLogSample [100, -100] 90 =
      num (25/2097152) ∧
    DailyRisk.dailyProbability DailyRisk.mathLogSample [100, -100] 100 =
      num (25/256) ∧
    jle (DailyRisk.dailyProbability DailyRisk.mathLogSample [100, -100] 100)
      (DailyRisk.dailyProbability DailyRisk.mathLogSample [100, -100] 90) =
      false := by
  have hA : DailyRisk.mathLogSample (num (1/10)) = num (-(2302585/1000000 : ℚ)) := by
    unfold DailyRisk.mathLogSample
    rw [if_pos rfl]
  have hB : DailyRisk.mathLogSample (num (99/100)) =
      num (-(100503/10000000 : ℚ)) := by
    unfold DailyRisk.mathLogSample
    rw [if_neg (by simp only [JsNum.num.injEq]; norm_num), if_pos rfl]
  have h0 : DailyRisk.mathLogSample (num 0) = JsNum.ninf := by
    unfold DailyRisk.mathLogSample
    rw [if_neg (by simp only [JsNum.num.injEq]; norm_num), if_neg (by simp only [JsNum.num.injEq]; norm_num), if_pos rfl]
  have h := dailyRuin_violation_general DailyRisk.mathLogSample _ _ hA hB h0
    (by norm_num) (by norm_num) (by norm_num)
  refine ⟨by simp [DailyRisk.dailyLossLevels], by simp [DailyRisk.dailyLossLevels],
    h.1, h.2, ?_⟩
  rw [h.1, h.2, jle_num]
  exact decide_eq_false (by norm_num)

/-- C8, counterexample.  With the winning trade `+10` and a zero-profit
trade (initial balance 1000) there are no losing trades, so
`avgLossPct = 0` and the sentinel 999 appears — but the win rate is 50%,
not 100%, and the probability in the table is `(1/2)^999 · 100`, a positive
number, not the 0 the claim requires for every drawdown level in the
degenerate case. -/
theorem ruin_probability_nonzero_counterexample :
    RiskModel.consecutiveLossesFor (RiskModel.tradeReturns [10, 0] 1000) 10 = num 999 ∧
    RiskModel.tableProbability (RiskModel.tradeReturns [10, 0] 1000) 10 =
      num ((1/2 : ℚ) ^ 999 * 100) ∧
    (1/2 : ℚ) ^ 999 * 100 ≠ 0 := by
  have hq : returnsQ [10, 0] 1000 = [1, 0] := by norm_num [returnsQ]
  have hl : lossesQ [1, 0] = [] := by norm_num [lossesQ]
  have hal : avgLossQ [1, 0] = 0 := avgLossQ_eq_zero _ hl
  have hw : winsQ [1, 0] = [1] := by norm_num [winsQ]
  have hwr : winRateQ [1, 0] = 50 := by
    rw [winRateQ, hw]
    norm_num
  have hmap := RiskModel.tradeReturns_eq_map [10, 0] 1000 (by norm_num)
  rw [hq] at hmap
  refine ⟨?_, ?_, by positivity⟩
  · rw [hmap, consecutive_map_sentinel _ _ (le_of_eq hal)]
  · rw [hmap, tableProbability_map_sentinel _ _ (by simp) (le_of_eq hal), hwr]
    have he : (1 : ℚ) - 50 / 100 = 1/2 := by norm_num
    rw [he]

/-- C8, amended.  In the degenerate case of no losing trades the estimator
raises no error and reports the sentinel 999 for every drawdown level, and
the probability is `(1 − win_rate)^999 · 100` — which is 0 exactly in the
all-winning case; when zero-profit trades keep the win rate below 100% it
is positive (though astronomically small), not 0. -/
theorem ruin_degenerate_spec (profits : List ℚ) (initB : ℚ) (level : ℚ)
    (h1 : profits ≠ []) (h2 : 0 < initB) (h3 : ∀ p ∈ profits, 0 ≤ p) :
    RiskModel.consecutiveLossesFor (RiskModel.tradeReturns profits initB) level =
      num 999 ∧
    RiskModel.tableProbability (RiskModel.tradeReturns profits initB) level =
      num ((1 - winRateQ (returnsQ profits initB) / 100) ^ 999 * 100) ∧
    ((∀ p ∈ profits, 0 < p) →
      RiskModel.tableProbability (RiskModel.tradeReturns profits initB) level =
        num 0) := by
  have hne : returnsQ profits initB ≠ [] := by
    unfold returnsQ
    simpa using h1
  have hlq : lossesQ (returnsQ profits initB) = [] := by
    apply List.filter_eq_nil_iff.2
    intro x hx
    simp only [returnsQ, List.mem_map] at hx
    obtain ⟨p, hp, rfl⟩ := hx
    have hp0 := h3 p hp
    have hx0 : 0 ≤ p / initB * 100 := by positivity
    simpa using hx0
  have hal : avgLossQ (returnsQ profits initB) = 0 := avgLossQ_eq_zero _ hlq
  have hmap := RiskModel.tradeReturns_eq_map profits initB (ne_of_gt h2)
  refine ⟨?_, ?_, ?_⟩
  · rw [hmap, consecutive_map_sentinel _ _ (le_of_eq hal)]
  · rw [hmap, tableProbability_map_sentinel _ _ hne (le_of_eq hal)]
  · intro hall
    rw [hmap, tableProbability_map_sentinel _ _ hne (le_of_eq hal)]
    have hws : winsQ (returnsQ profits initB) = returnsQ profits initB := by
      apply List.filter_eq_self.2
      intro x hx
      simp only [returnsQ, List.mem_map] at hx
      obtain ⟨p, hp, rfl⟩ := hx
      have hpp := hall p hp
      have hx0 : 0 < p / initB * 100 := by positivity
      simpa using hx0
    have hwq : winRateQ (returnsQ profits initB) = 100 := by
      rw [winRateQ, hws, div_self, one_mul]
      exact_mod_cast (List.length_pos.2 hne).ne'
    rw [hwq]
    norm_num

/-- C8 witness: a single winning trade gives the sentinel 999 and
probability 0. -/
theorem ruin_degenerate_spec_witness :
    RiskModel.consecutiveLossesFor (RiskModel.tradeReturns [10] 1000) 10 = num 999 ∧
    RiskModel.tableProbability (RiskModel.tradeReturns [10] 1000) 10 = num 0 := by
  have h := ruin_degenerate_spec [10] 1000 10 (by simp) (by norm_num)
    (by intro p hp; rw [List.mem_singleton] at hp; subst hp; norm_num)
  exact ⟨h.1, h.2.2 (by intro p hp; rw [List.mem_singleton] at hp; subst hp; norm_num)⟩

/-!
## Claim theorems: determinism
-/

/-- C9, counterexample.  Two engine components are not pure functions of
their explicit inputs.  `periodsData` (src/unnamed/part_008) samples
`new Date()` inside the component: the same trade list yields Today-profit
7 when the sampled clock reads epoch 0 and 0 when it reads one day later.
The MAE estimator (src/unnamed/part_009) consumes `Math.random()`: the same
winning trade yields different MAE values for different draws. -/
theorem purity_counterexample :
    todayProfit [(0, 7)] 0 ≠ todayProfit [(0, 7)] 86400000 ∧
    maeEstimate 5 50 0 ≠ maeEstimate 5 50 (1/2) := by
  constructor
  · have hm0 : midnightMs 0 = 0 := by decide
    have hm1 : midnightMs 86400000 = 86400000 := by decide
    have h1 : todayProfit [(0, 7)] 0 = 7 := by
      unfold todayProfit
      rw [hm0]
      norm_num [msPerDay]
    have h2 : todayProfit [(0, 7)] 86400000 = 0 := by
      unfold todayProfit
      rw [hm1]
      norm_num [msPerDay]
    rw [h1, h2]
    norm_num
  · norm_num [maeEstimate]

/-- C9, amended.  The analytics are deterministic only relative to the
internally sampled inputs: every output is a function of the trade list,
the balance, the sampled clock value and the random draws, and the Today
bucket of `periodsData` depends on the sampled clock only through the
calendar day containing it — two samples taken on the same day yield
identical period statistics, while samples on different days (and different
random draws for the MAE estimate) yield different outputs. -/
theorem todayProfit_clock_dependence (trades : List (ℤ × ℚ)) (n1 n2 : ℤ)
    (h : midnightMs n1 = midnightMs n2) :
    todayProfit trades n1 = todayProfit trades n2 := by
  unfold todayProfit
  rw [h]

/-- C9 witness: two clock samples 100 ms apart on the same day give the
same Today profit. -/
theorem todayProfit_clock_dependence_witness :
    todayProfit [(0, 7)] 100 = todayProfit [(0, 7)] 200 :=
  todayProfit_clock_dependence [(0, 7)] 100 200 (by decide)

end TradeTracker
